import Mathlib

/-!
Verification of the `mdxpy` MDX query builder (file `mdxpy/mdx.py`).

Strings are modelled as `List Char`.  Python's `str.lower` is modelled as a
character-wise map with `Char.toLower` (the library is used on ASCII
identifiers; `Char.toLower` agrees with Python on that range).  Python's
`str.replace` with a one-character pattern substitutes every occurrence of
that character independently, which `pyReplace1` mirrors.  Methods that
raise exceptions are modelled with `Except String` (or `Option`): the
error branch carries the message of the `ValueError` raised by the source.
-/

namespace Mdxpy

/-- Python `s.lower()`, character-wise (ASCII case folding). -/
def pyLower (s : List Char) : List Char := s.map Char.toLower

/-- Python `s.replace(pat, rep)` for a one-character pattern `pat = c`:
every occurrence of `c` is replaced by `rep`. -/
def pyReplace1 (c : Char) (rep : List Char) : List Char → List Char
  | [] => []
  | x :: rest => if x = c then rep ++ pyReplace1 c rep rest else x :: pyReplace1 c rep rest

/-- `normalize` from `mdx.py` line 68-69:
`name.lower().replace(" ", "").replace("]", "]]")`. -/
def normalize (s : List Char) : List Char :=
  pyReplace1 ']' [']', ']'] (pyReplace1 ' ' [] (pyLower s))

theorem pyReplace1_eq_flatten (c : Char) (rep : List Char) (s : List Char) :
    pyReplace1 c rep s = (s.map (fun x => if x = c then rep else [x])).flatten := by
  induction s with
  | nil => rfl
  | cons x rest ih =>
    by_cases h : x = c <;> simp [pyReplace1, h, ih]

theorem pyReplace1_empty_eq_filter (c : Char) (s : List Char) :
    pyReplace1 c [] s = s.filter (fun x => x ≠ c) := by
  induction s with
  | nil => rfl
  | cons x rest ih =>
    by_cases h : x = c <;> simp [pyReplace1, h, ih]

theorem char_toNat_ofNat_valid {n : Nat} (h : n.isValidChar) : (Char.ofNat n).toNat = n := by
  simp [Char.ofNat, dif_pos h, Char.ofNatAux, Char.toNat, UInt32.toNat]

theorem char_eq_of_toNat_eq {c d : Char} (h : c.toNat = d.toNat) : c = d := by
  have hc := Char.ofNat_toNat c
  have hd := Char.ofNat_toNat d
  rw [← hc, ← hd, h]

theorem toNat_toLower (c : Char) :
    (Char.toLower c).toNat = if c.toNat ≥ 65 ∧ c.toNat ≤ 90 then c.toNat + 32 else c.toNat := by
  by_cases h : c.toNat ≥ 65 ∧ c.toNat ≤ 90
  · have hv : (c.toNat + 32).isValidChar := by
      apply Or.inl
      omega
    simp [Char.toLower, h, char_toNat_ofNat_valid hv]
  · simp [Char.toLower, h]

theorem toLower_toLower (c : Char) : Char.toLower (Char.toLower c) = Char.toLower c := by
  have h1 := toNat_toLower c
  have h2 : ¬((Char.toLower c).toNat ≥ 65 ∧ (Char.toLower c).toNat ≤ 90) := by
    by_cases h : c.toNat ≥ 65 ∧ c.toNat ≤ 90 <;> simp [h] at h1 <;> omega
  simp [Char.toLower]
  intro h3 h4
  exact absurd ⟨h3, h4⟩ h2

theorem toLower_eq_bracket {c : Char} (h : Char.toLower c = ']') : c = ']' := by
  have h1 := toNat_toLower c
  rw [h] at h1
  have hb : (']' : Char).toNat = 93 := by decide
  rw [hb] at h1
  by_cases hc : c.toNat ≥ 65 ∧ c.toNat ≤ 90
  · simp [hc] at h1; omega
  · simp [hc] at h1
    exact char_eq_of_toNat_eq (by rw [hb]; omega)

theorem toLower_eq_space {c : Char} (h : Char.toLower c = ' ') : c = ' ' := by
  have h1 := toNat_toLower c
  rw [h] at h1
  have hb : (' ' : Char).toNat = 32 := by decide
  rw [hb] at h1
  by_cases hc : c.toNat ≥ 65 ∧ c.toNat ≤ 90
  · simp [hc] at h1; omega
  · simp [hc] at h1
    exact char_eq_of_toNat_eq (by rw [hb]; omega)

theorem pyReplace1_no_occurrence {c : Char} {s : List Char} (h : c ∉ s) (rep : List Char) :
    pyReplace1 c rep s = s := by
  induction s with
  | nil => rfl
  | cons x rest ih =>
    have hx : x ≠ c := fun e => h (e ▸ List.mem_cons_self x rest)
    have hr : c ∉ rest := fun e => h (List.mem_cons_of_mem x e)
    simp [pyReplace1, hx, ih hr]

theorem mem_pyReplace1_empty {c x : Char} {s : List Char} (h : x ∈ pyReplace1 c [] s) : x ∈ s := by
  induction s with
  | nil => simp [pyReplace1] at h
  | cons y rest ih =>
    by_cases hy : y = c
    · simp [pyReplace1, hy] at h
      exact List.mem_cons_of_mem y (ih (by simpa [hy] using h))
    · simp [pyReplace1, hy] at h
      rcases h with h | h
      · exact h ▸ List.mem_cons_self y rest
      · exact List.mem_cons_of_mem y (ih h)

theorem space_not_mem_pyReplace1_space (s : List Char) : ' ' ∉ pyReplace1 ' ' [] s := by
  induction s with
  | nil => simp [pyReplace1]
  | cons y rest ih =>
    by_cases hy : y = ' ' <;> simp [pyReplace1, hy, ih]
    exact fun e => hy e.symm

theorem pyLower_stripped_fixed (s : List Char) :
    pyLower (pyReplace1 ' ' [] (pyLower s)) = pyReplace1 ' ' [] (pyLower s) := by
  induction s with
  | nil => rfl
  | cons x rest ih =>
    by_cases hx : Char.toLower x = ' '
    · simp [pyLower, pyReplace1, hx] at ih ⊢
      exact ih
    · simp [pyLower, pyReplace1, hx] at ih ⊢
      exact ⟨toLower_toLower x, ih⟩

theorem bracket_not_mem_core {s : List Char} (h : ']' ∉ s) :
    ']' ∉ pyReplace1 ' ' [] (pyLower s) := by
  intro hmem
  have h1 : ']' ∈ pyLower s := mem_pyReplace1_empty hmem
  rw [pyLower, List.mem_map] at h1
  obtain ⟨c, hc, hlow⟩ := h1
  exact h (toLower_eq_bracket hlow ▸ hc)

/-- On bracket-free input, `normalize` is the lowercase space-stripping map
and is idempotent. -/
theorem normalize_of_no_bracket {s : List Char} (h : ']' ∉ s) :
    normalize s = pyReplace1 ' ' [] (pyLower s) := by
  rw [normalize, pyReplace1_no_occurrence (bracket_not_mem_core h)]

theorem normalize_no_bracket_of_no_bracket {s : List Char} (h : ']' ∉ s) :
    ']' ∉ normalize s := by
  rw [normalize_of_no_bracket h]
  exact bracket_not_mem_core h

theorem normalize_idem_of_no_bracket {s : List Char} (h : ']' ∉ s) :
    normalize (normalize s) = normalize s := by
  rw [normalize_of_no_bracket h]
  rw [normalize_of_no_bracket (bracket_not_mem_core h)]
  rw [pyLower_stripped_fixed]
  rw [pyReplace1_no_occurrence (space_not_mem_pyReplace1_space (pyLower s))]

/-- **C1.** `normalize` is a total deterministic function (it is a Lean
function) that case-folds to lower case, removes every space character and
doubles every `]`: its result is obtained by mapping `Char.toLower` over the
input, filtering out the spaces, and replacing each `]` by `]]`;
and on the concrete input `"a]b"` it returns `"a]]b"`. -/
theorem normalize_spec :
    (∀ s : List Char,
      normalize s =
        (((s.map Char.toLower).filter (fun x => x ≠ ' ')).map
          (fun x => if x = ']' then [']', ']'] else [x])).flatten) ∧
    normalize "a]b".data = "a]]b".data := by
  constructor
  · intro s
    rw [normalize, pyLower, pyReplace1_empty_eq_filter, pyReplace1_eq_flatten]
  · rfl

/-! ## Member (`mdx.py` lines 72-131)

The separator pattern searched by the parsing helpers is `"].["`.
`findSepIdx`/`rfindSepIdx` model Python `str.find`/`str.rfind` for that
pattern (index of the first/last occurrence, `-1` if absent), `countSep`
models `str.count` (non-overlapping count; `"].["` cannot overlap itself,
and on a match the scan resumes after the matched three characters), and
`pySlice` models Python slice notation `s[i:j]` with negative-index
wrap-around and clamping. -/

/-- Index of the first occurrence of `"].["`, if any. -/
def findSepAux : List Char → Option Nat
  | [] => none
  | c :: rest =>
    if [']', '.', '['].isPrefixOf (c :: rest) then some 0
    else (findSepAux rest).map (· + 1)

/-- Index of the last occurrence of `"].["`, if any. -/
def rfindSepAux : List Char → Option Nat
  | [] => none
  | c :: rest =>
    match rfindSepAux rest with
    | some i => some (i + 1)
    | none => if [']', '.', '['].isPrefixOf (c :: rest) then some 0 else none

/-- Python `s.find("].[")`: `-1` when absent. -/
def findSep (s : List Char) : Int :=
  match findSepAux s with
  | some i => (i : Int)
  | none => -1

/-- Python `s.rfind("].[")`: `-1` when absent. -/
def rfindSep (s : List Char) : Int :=
  match rfindSepAux s with
  | some i => (i : Int)
  | none => -1

/-- Python `s.count("].[")`: non-overlapping occurrences, scanning from the
left and resuming after each match. -/
def countSep : List Char → Nat
  | ']' :: '.' :: '[' :: rest => 1 + countSep rest
  | _ :: rest => countSep rest
  | [] => 0

/-- Python slice `s[i:j]` (step 1): negative indices count from the end,
then both bounds are clamped to `[0, len(s)]`. -/
def pySlice (s : List Char) (i j : Int) : List Char :=
  let n : Int := s.length
  let a : Nat := (min (max (if i < 0 then i + n else i) 0) n).toNat
  let b : Nat := (min (max (if j < 0 then j + n else j) 0) n).toNat
  (s.take b).drop a

/-- `Member.dimension_name_from_unique_name` (line 115-116). -/
def dimensionNameFromUniqueName (s : List Char) : List Char :=
  pySlice s 1 (findSep s)

/-- `Member.hierarchy_name_from_unique_name` (line 118-120). -/
def hierarchyNameFromUniqueName (s : List Char) : List Char :=
  pySlice s (findSep s + 3) (rfindSep s)

/-- `Member.element_name_from_unique_name` (line 122-124). -/
def elementNameFromUniqueName (s : List Char) : List Char :=
  pySlice s (rfindSep s + 3) (-1)

/-- `Member.build_unique_name` (lines 82-86).  The `SHORT_NOTATION` class
toggle is threaded as the explicit parameter `sn`; the collapse test
`dimension == hierarchy` compares the raw arguments, as the source does. -/
def buildUniqueName (sn : Bool) (dimension hierarchy element : List Char) : List Char :=
  if sn = true ∧ dimension = hierarchy then
    '[' :: (normalize dimension ++ (']' :: '.' :: '[' :: (normalize element ++ [']'])))
  else
    '[' :: (normalize dimension ++ (']' :: '.' :: '[' :: (normalize hierarchy ++
      (']' :: '.' :: '[' :: (normalize element ++ [']'])))))

/-- A `Member` (lines 72-86): the raw coordinates plus the derived unique
name computed at construction. -/
structure MemberT where
  dimension : List Char
  hierarchy : List Char
  element : List Char
  uniqueName : List Char
  deriving DecidableEq, Repr

/-- `Member.__init__` (lines 76-80). -/
def mkMember (sn : Bool) (dimension hierarchy element : List Char) : MemberT :=
  ⟨dimension, hierarchy, element, buildUniqueName sn dimension hierarchy element⟩

/-- `Member.from_unique_name` (lines 88-100): `none` models the raised
`ValueError`. -/
def fromUniqueName (sn : Bool) (s : List Char) : Option MemberT :=
  let dimension := dimensionNameFromUniqueName s
  let element := elementNameFromUniqueName s
  if countSep s = 1 then some (mkMember sn dimension dimension element)
  else if countSep s = 2 then
    some (mkMember sn dimension (hierarchyNameFromUniqueName s) element)
  else none

/-- `Member.of` (lines 102-112): variable arity is modelled by a list of
arguments; `none` models the raised `ValueError`. -/
def memberOf (sn : Bool) : List (List Char) → Option MemberT
  | [u] => fromUniqueName sn u
  | [d, e] => some (mkMember sn d d e)
  | [d, h, e] => some (mkMember sn d h e)
  | _ => none

/-! ### Lemmas about the separator scan -/

theorem findSepAux_cons_nb {c : Char} (h : c ≠ ']') (t : List Char) :
    findSepAux (c :: t) = (findSepAux t).map (· + 1) := by
  have hp : ([']', '.', '['].isPrefixOf (c :: t)) = false := by
    simp [List.isPrefixOf]
    intro h'
    exact absurd h'.symm h
  simp [findSepAux, hp]

theorem findSepAux_append_clean {xs : List Char} (h : ']' ∉ xs) (t : List Char) :
    findSepAux (xs ++ t) = (findSepAux t).map (· + xs.length) := by
  induction xs with
  | nil => cases h' : findSepAux t <;> simp [h']
  | cons c xs ih =>
    have hc : c ≠ ']' := fun e => h (e ▸ List.mem_cons_self c xs)
    have hxs : ']' ∉ xs := fun e => h (List.mem_cons_of_mem c e)
    rw [List.cons_append, findSepAux_cons_nb hc, ih hxs]
    cases findSepAux t <;> simp <;> omega

theorem findSepAux_sep (t : List Char) : findSepAux (']' :: '.' :: '[' :: t) = some 0 := by
  simp [findSepAux, List.isPrefixOf]

theorem rfindSepAux_append_some {t : List Char} {i : Nat} (h : rfindSepAux t = some i)
    (xs : List Char) : rfindSepAux (xs ++ t) = some (xs.length + i) := by
  induction xs with
  | nil => simpa using h
  | cons c xs ih =>
    rw [List.cons_append]
    simp [rfindSepAux, ih]
    omega

theorem rfindSepAux_clean_snoc {xs : List Char} (h : ']' ∉ xs) :
    rfindSepAux (xs ++ [']']) = none := by
  induction xs with
  | nil => rfl
  | cons c xs ih =>
    have hc : c ≠ ']' := fun e => h (e ▸ List.mem_cons_self c xs)
    have hxs : ']' ∉ xs := fun e => h (List.mem_cons_of_mem c e)
    rw [List.cons_append]
    have hp : ([']', '.', '['].isPrefixOf (c :: (xs ++ [']']))) = false := by
      simp [List.isPrefixOf]
      intro h'
      exact absurd h'.symm hc
    simp [rfindSepAux, ih hxs, hp]

theorem countSep_cons_nb {c : Char} (h : c ≠ ']') (l : List Char) :
    countSep (c :: l) = countSep l := by
  rw [countSep.eq_def]
  split
  · next heq => rw [List.cons.injEq] at heq; exact absurd heq.1 h
  · next c' rest _ heq => rw [List.cons.injEq] at heq; rw [heq.2]
  · next heq => exact absurd heq (List.cons_ne_nil c l)

theorem countSep_append_clean {xs : List Char} (h : ']' ∉ xs) (t : List Char) :
    countSep (xs ++ t) = countSep t := by
  induction xs with
  | nil => rfl
  | cons c xs ih =>
    have hc : c ≠ ']' := fun e => h (e ▸ List.mem_cons_self c xs)
    have hxs : ']' ∉ xs := fun e => h (List.mem_cons_of_mem c e)
    rw [List.cons_append, countSep_cons_nb hc, ih hxs]

theorem countSep_sep (t : List Char) : countSep (']' :: '.' :: '[' :: t) = 1 + countSep t := rfl

theorem countSep_clean_snoc {xs : List Char} (h : ']' ∉ xs) : countSep (xs ++ [']']) = 0 := by
  rw [countSep_append_clean h]
  rfl

theorem take_append_len {α : Type} (l₁ l₂ : List α) (k : Nat) :
    (l₁ ++ l₂).take (l₁.length + k) = l₁ ++ l₂.take k := by
  induction l₁ with
  | nil => simp
  | cons a l ih => simp [List.length_cons, Nat.succ_add, ih]

theorem pySlice_of_nat (s : List Char) (i j : Nat) (hi : i ≤ s.length) (hj : j ≤ s.length) :
    pySlice s (i : Int) (j : Int) = (s.take j).drop i := by
  unfold pySlice
  have h1 : (if (i : Int) < 0 then (i : Int) + s.length else (i : Int)) = (i : Int) := by
    rw [if_neg]; omega
  have h2 : (if (j : Int) < 0 then (j : Int) + s.length else (j : Int)) = (j : Int) := by
    rw [if_neg]; omega
  have h3 : (min (max (i : Int) 0) (s.length : Int)).toNat = i := by omega
  have h4 : (min (max (j : Int) 0) (s.length : Int)).toNat = j := by omega
  simp only [h1, h2, h3, h4]

theorem pySlice_neg_one (s : List Char) (i : Nat) (hi : i ≤ s.length) :
    pySlice s (i : Int) (-1) = (s.take (s.length - 1)).drop i := by
  unfold pySlice
  have h1 : (if (i : Int) < 0 then (i : Int) + s.length else (i : Int)) = (i : Int) := by
    rw [if_neg]; omega
  have h2 : (if (-1 : Int) < 0 then (-1 : Int) + s.length else (-1 : Int)) =
      (-1 : Int) + s.length := by rw [if_pos]; omega
  have h3 : (min (max (i : Int) 0) (s.length : Int)).toNat = i := by omega
  have h4 : (min (max ((-1 : Int) + s.length) 0) (s.length : Int)).toNat = s.length - 1 := by
    omega
  simp only [h1, h2, h3, h4]

/-! ### Parsing a well-formed unique name `[A].[B].[C]` (or `[A].[B]`) whose
segments contain no `]` -/

theorem not_mem_cons_of {c a : Char} {l : List Char} (h1 : c ≠ a) (h2 : c ∉ l) :
    c ∉ a :: l := by
  intro hm
  rcases List.mem_cons.mp hm with h | h
  · exact h1 h
  · exact h2 h

theorem countSep_uq3 {A B C : List Char} (hA : ']' ∉ A) (hB : ']' ∉ B) (hC : ']' ∉ C) :
    countSep
      ('[' :: (A ++ (']' :: '.' :: '[' :: (B ++ (']' :: '.' :: '[' :: (C ++ [']'])))))) = 2 := by
  rw [countSep_cons_nb (by decide), countSep_append_clean hA, countSep_sep,
    countSep_append_clean hB, countSep_sep, countSep_clean_snoc hC]

theorem countSep_uq2 {A B : List Char} (hA : ']' ∉ A) (hB : ']' ∉ B) :
    countSep ('[' :: (A ++ (']' :: '.' :: '[' :: (B ++ [']'])))) = 1 := by
  rw [countSep_cons_nb (by decide), countSep_append_clean hA, countSep_sep,
    countSep_clean_snoc hB]

theorem findSep_uq3 {A : List Char} (hA : ']' ∉ A) (t : List Char) :
    findSep ('[' :: (A ++ (']' :: '.' :: '[' :: t))) = ((1 + A.length : Nat) : Int) := by
  simp [findSep, findSepAux_cons_nb (show ('[' : Char) ≠ ']' by decide),
    findSepAux_append_clean hA, findSepAux_sep]
  omega

theorem rfindSepAux_tail3 {C : List Char} (hC : ']' ∉ C) :
    rfindSepAux (']' :: '.' :: '[' :: (C ++ [']'])) = some 0 := by
  have hcl : ']' ∉ '.' :: '[' :: C :=
    not_mem_cons_of (by decide) (not_mem_cons_of (by decide) hC)
  have h1 : rfindSepAux (('.' :: '[' :: C) ++ [']']) = none := rfindSepAux_clean_snoc hcl
  have h2 : ('.' :: '[' :: C) ++ [']'] = '.' :: '[' :: (C ++ [']']) := by simp
  rw [h2] at h1
  rw [rfindSepAux.eq_def]
  dsimp only []
  rw [h1]
  simp [List.isPrefixOf]

theorem rfindSep_uq3 {A B C : List Char} (hC : ']' ∉ C) :
    rfindSep
      ('[' :: (A ++ (']' :: '.' :: '[' :: (B ++ (']' :: '.' :: '[' :: (C ++ [']'])))))) =
      ((4 + A.length + B.length : Nat) : Int) := by
  have h0 : rfindSepAux (']' :: '.' :: '[' :: (C ++ [']'])) = some 0 := rfindSepAux_tail3 hC
  have h1 := rfindSepAux_append_some h0 B
  have h2 := rfindSepAux_append_some h1 ([']', '.', '['])
  have h2' : rfindSepAux (']' :: '.' :: '[' :: (B ++ (']' :: '.' :: '[' :: (C ++ [']'])))) =
      some (3 + (B.length + 0)) := h2
  have h3 := rfindSepAux_append_some h2' A
  have h4 := rfindSepAux_append_some h3 (['['])
  have h4' : rfindSepAux
      ('[' :: (A ++ (']' :: '.' :: '[' :: (B ++ (']' :: '.' :: '[' :: (C ++ [']'])))))) =
      some (1 + (A.length + (3 + (B.length + 0)))) := h4
  simp [rfindSep, h4']
  omega

theorem rfindSep_uq2 {A B : List Char} (hB : ']' ∉ B) :
    rfindSep ('[' :: (A ++ (']' :: '.' :: '[' :: (B ++ [']'])))) =
      ((1 + A.length : Nat) : Int) := by
  have h0 : rfindSepAux (']' :: '.' :: '[' :: (B ++ [']'])) = some 0 := rfindSepAux_tail3 hB
  have h1 := rfindSepAux_append_some h0 A
  have h2 := rfindSepAux_append_some h1 (['['])
  have h2' : rfindSepAux ('[' :: (A ++ (']' :: '.' :: '[' :: (B ++ [']'])))) =
      some (1 + (A.length + 0)) := h2
  simp [rfindSep, h2']

theorem length_uq3 (A B C : List Char) :
    ('[' :: (A ++ (']' :: '.' :: '[' :: (B ++ (']' :: '.' :: '[' :: (C ++ [']'])))))).length =
      8 + A.length + B.length + C.length := by
  simp [List.length_append]
  omega

theorem length_uq2 (A B : List Char) :
    ('[' :: (A ++ (']' :: '.' :: '[' :: (B ++ [']'])))).length = 5 + A.length + B.length := by
  simp [List.length_append]
  omega

theorem drop_one_cons {α : Type} (a : α) (l : List α) : (a :: l).drop 1 = l := rfl

theorem dimName_uq3 {A : List Char} (hA : ']' ∉ A) (t : List Char) :
    dimensionNameFromUniqueName ('[' :: (A ++ (']' :: '.' :: '[' :: t))) = A := by
  unfold dimensionNameFromUniqueName
  rw [findSep_uq3 hA]
  have hlen : ('[' :: (A ++ (']' :: '.' :: '[' :: t))).length =
      4 + A.length + t.length := by
    simp [List.length_append]
    omega
  rw [show (1 : Int) = ((1 : Nat) : Int) from rfl]
  rw [pySlice_of_nat _ 1 (1 + A.length) (by omega) (by rw [hlen]; omega)]
  rw [show ('[' :: (A ++ (']' :: '.' :: '[' :: t))) = ('[' :: A) ++ (']' :: '.' :: '[' :: t)
    from rfl]
  rw [List.take_left' (by simp; omega), drop_one_cons]

theorem hierName_uq3 {A B C : List Char} (hA : ']' ∉ A) (hC : ']' ∉ C) :
    hierarchyNameFromUniqueName
      ('[' :: (A ++ (']' :: '.' :: '[' :: (B ++ (']' :: '.' :: '[' :: (C ++ [']'])))))) = B := by
  unfold hierarchyNameFromUniqueName
  rw [findSep_uq3 hA, rfindSep_uq3 hC]
  rw [show ((1 + A.length : Nat) : Int) + 3 = ((4 + A.length : Nat) : Int) from by push_cast; ring]
  rw [pySlice_of_nat _ (4 + A.length) (4 + A.length + B.length)
    (by rw [length_uq3]; omega) (by rw [length_uq3]; omega)]
  have hshape : ('[' :: (A ++ (']' :: '.' :: '[' :: (B ++ (']' :: '.' :: '[' :: (C ++ [']'])))))) =
      ('[' :: (A ++ [']', '.', '['])) ++ (B ++ (']' :: '.' :: '[' :: (C ++ [']']))) := by
    simp
  rw [hshape]
  have hpre : ('[' :: (A ++ ([']', '.', '['] : List Char))).length = 4 + A.length := by
    simp
    omega
  rw [show 4 + A.length + B.length = ('[' :: (A ++ ([']', '.', '['] : List Char))).length + B.length
    from by rw [hpre]]
  rw [take_append_len, List.take_left, List.drop_left' hpre]

theorem elemName_uq3 {A B C : List Char} (hC : ']' ∉ C) :
    elementNameFromUniqueName
      ('[' :: (A ++ (']' :: '.' :: '[' :: (B ++ (']' :: '.' :: '[' :: (C ++ [']'])))))) = C := by
  unfold elementNameFromUniqueName
  rw [rfindSep_uq3 hC]
  rw [show ((4 + A.length + B.length : Nat) : Int) + 3 = ((7 + A.length + B.length : Nat) : Int)
    from by push_cast; ring]
  rw [pySlice_neg_one _ (7 + A.length + B.length) (by rw [length_uq3]; omega)]
  rw [length_uq3]
  have hshape : ('[' :: (A ++ (']' :: '.' :: '[' :: (B ++ (']' :: '.' :: '[' :: (C ++ [']'])))))) =
      ('[' :: (A ++ (']' :: '.' :: '[' :: (B ++ [']', '.', '['])))) ++ (C ++ [']']) := by
    simp
  rw [hshape]
  have hpre : ('[' :: (A ++ (']' :: '.' :: '[' :: (B ++ ([']', '.', '['] : List Char))))).length =
      7 + A.length + B.length := by
    simp [List.length_append]
    omega
  rw [show 8 + A.length + B.length + C.length - 1 =
      ('[' :: (A ++ (']' :: '.' :: '[' :: (B ++ ([']', '.', '['] : List Char))))).length + C.length
    from by rw [hpre]; omega]
  rw [take_append_len, List.take_left]
  rw [← hpre, List.drop_left]

theorem dimName_uq2 {A : List Char} (hA : ']' ∉ A) (t : List Char) :
    dimensionNameFromUniqueName ('[' :: (A ++ (']' :: '.' :: '[' :: t))) = A :=
  dimName_uq3 hA t

theorem elemName_uq2 {A B : List Char} (hB : ']' ∉ B) :
    elementNameFromUniqueName ('[' :: (A ++ (']' :: '.' :: '[' :: (B ++ [']'])))) = B := by
  unfold elementNameFromUniqueName
  rw [rfindSep_uq2 hB]
  rw [show ((1 + A.length : Nat) : Int) + 3 = ((4 + A.length : Nat) : Int) from by push_cast; ring]
  rw [pySlice_neg_one _ (4 + A.length) (by rw [length_uq2]; omega)]
  rw [length_uq2]
  have hshape : ('[' :: (A ++ (']' :: '.' :: '[' :: (B ++ [']'])))) =
      ('[' :: (A ++ [']', '.', '['])) ++ (B ++ [']']) := by
    simp
  rw [hshape]
  have hpre : ('[' :: (A ++ ([']', '.', '['] : List Char))).length = 4 + A.length := by
    simp
    omega
  rw [show 5 + A.length + B.length - 1 =
      ('[' :: (A ++ ([']', '.', '['] : List Char))).length + B.length from by rw [hpre]; omega]
  rw [take_append_len, List.take_left]
  rw [← hpre, List.drop_left]

theorem fromUniqueName_uq3 (sn : Bool) {A B C : List Char}
    (hA : ']' ∉ A) (hB : ']' ∉ B) (hC : ']' ∉ C) :
    fromUniqueName sn
      ('[' :: (A ++ (']' :: '.' :: '[' :: (B ++ (']' :: '.' :: '[' :: (C ++ [']'])))))) =
      some (mkMember sn A B C) := by
  unfold fromUniqueName
  simp only [countSep_uq3 hA hB hC, dimName_uq3 hA, elemName_uq3 hC, hierName_uq3 hA hC]
  norm_num

theorem fromUniqueName_uq2 (sn : Bool) {A B : List Char} (hA : ']' ∉ A) (hB : ']' ∉ B) :
    fromUniqueName sn ('[' :: (A ++ (']' :: '.' :: '[' :: (B ++ [']'])))) =
      some (mkMember sn A A B) := by
  unfold fromUniqueName
  simp only [countSep_uq2 hA hB, dimName_uq2 hA, elemName_uq2 hB]
  norm_num

/-- **C3.** `Member.of` with one string argument succeeds exactly when the
argument contains one or two `].[` separators; a well-formed 2-segment name
`[A].[B]` yields the member `(dimension = A, hierarchy = A, element = B)`, a
well-formed 3-segment name `[A].[B].[C]` yields
`(dimension = A, hierarchy = B, element = C)` (stated for segments free of
`]`, so that the separator count is the segment count minus one), and a
call with zero or more than three arguments fails. -/
theorem member_of_spec :
    (∀ (sn : Bool) (u : List Char),
      (∃ m, memberOf sn [u] = some m) ↔ (countSep u = 1 ∨ countSep u = 2)) ∧
    (∀ (sn : Bool) (A B : List Char), ']' ∉ A → ']' ∉ B →
      memberOf sn ['[' :: (A ++ (']' :: '.' :: '[' :: (B ++ [']'])))] =
        some (mkMember sn A A B)) ∧
    (∀ (sn : Bool) (A B C : List Char), ']' ∉ A → ']' ∉ B → ']' ∉ C →
      memberOf sn
        ['[' :: (A ++ (']' :: '.' :: '[' :: (B ++ (']' :: '.' :: '[' :: (C ++ [']'])))))] =
        some (mkMember sn A B C)) ∧
    (∀ sn : Bool, memberOf sn [] = none) ∧
    (∀ (sn : Bool) (a b c d : List Char) (rest : List (List Char)),
      memberOf sn (a :: b :: c :: d :: rest) = none) := by
  refine ⟨?_, ?_, ?_, ?_, ?_⟩
  · intro sn u
    show (∃ m, fromUniqueName sn u = some m) ↔ _
    by_cases h1 : countSep u = 1
    · simp [fromUniqueName, h1]
    · by_cases h2 : countSep u = 2
      · simp [fromUniqueName, h1, h2]
      · simp [fromUniqueName, h1, h2]
  · intro sn A B hA hB
    exact fromUniqueName_uq2 sn hA hB
  · intro sn A B C hA hB hC
    exact fromUniqueName_uq3 sn hA hB hC
  · intro sn
    rfl
  · intro sn a b c d rest
    rfl

/-- Witness for **C3** at concrete inputs: parsing `[a].[b]` and
`[a].[b].[c]`. -/
theorem member_of_spec_witness :
    memberOf false ["[a].[b]".data] = some (mkMember false "a".data "a".data "b".data) ∧
    memberOf false ["[a].[b].[c]".data] =
      some (mkMember false "a".data "b".data "c".data) := by
  constructor
  · exact member_of_spec.2.1 false "a".data "b".data (by decide) (by decide)
  · exact member_of_spec.2.2.1 false "a".data "b".data "c".data
      (by decide) (by decide) (by decide)

/-- **C2** counterexample: for the member built from raw names
`("d", "d", "a]")` the unique name is `[d].[d].[a]]]`, but re-parsing that
unique name with `Member.of` yields a member whose unique name is
`[d].[d].[a]]]]]` (the `]]` escape is escaped again), which differs.  So the
round-trip claim fails as stated. -/
theorem member_roundtrip_cex :
    (mkMember false "d".data "d".data "a]".data).uniqueName = "[d].[d].[a]]]".data ∧
    (memberOf false [(mkMember false "d".data "d".data "a]".data).uniqueName]).map
      MemberT.uniqueName = some "[d].[d].[a]]]]]".data ∧
    ("[d].[d].[a]]]]]".data : List Char) ≠ "[d].[d].[a]]]".data := by
  exact ⟨rfl, rfl, by decide⟩

/-- **C2** (amended).  `Member.of(m.unique_name)` returns a member with the
same unique name as `m`, provided the raw dimension, hierarchy and element
names contain no `]` (bracket doubling is not idempotent) and, when the
short-notation toggle is on, the dimension and hierarchy are either equal
raw or distinct after normalization (otherwise re-parsing collapses a
3-segment name into a 2-segment one). -/
theorem member_roundtrip (sn : Bool) (d h e : List Char)
    (hd : ']' ∉ d) (hh : ']' ∉ h) (he : ']' ∉ e)
    (hsn : sn = true → d = h ∨ normalize d ≠ normalize h) :
    (memberOf sn [(mkMember sn d h e).uniqueName]).map MemberT.uniqueName =
      some (mkMember sn d h e).uniqueName := by
  have hnd := normalize_no_bracket_of_no_bracket hd
  have hnh := normalize_no_bracket_of_no_bracket hh
  have hne := normalize_no_bracket_of_no_bracket he
  have hid := normalize_idem_of_no_bracket hd
  have hih := normalize_idem_of_no_bracket hh
  have hie := normalize_idem_of_no_bracket he
  by_cases hcase : sn = true ∧ d = h
  · have hun : (mkMember sn d h e).uniqueName =
        '[' :: (normalize d ++ (']' :: '.' :: '[' :: (normalize e ++ [']']))) := by
      simp [mkMember, buildUniqueName, hcase]
    rw [hun]
    show (fromUniqueName sn _).map _ = _
    rw [fromUniqueName_uq2 sn hnd hne]
    simp [mkMember, buildUniqueName, hcase.1, hid, hie]
  · have hun : (mkMember sn d h e).uniqueName =
        '[' :: (normalize d ++ (']' :: '.' :: '[' :: (normalize h ++
          (']' :: '.' :: '[' :: (normalize e ++ [']']))))) := by
      simp [mkMember, buildUniqueName, hcase]
    rw [hun]
    show (fromUniqueName sn _).map _ = _
    rw [fromUniqueName_uq3 sn hnd hnh hne]
    have hcond : ¬(sn = true ∧ normalize d = normalize h) := by
      rintro ⟨hs, heq⟩
      rcases hsn hs with hdh | hne2
      · exact hcase ⟨hs, hdh⟩
      · exact hne2 heq
    simp [mkMember, buildUniqueName, hcond, hid, hih, hie]

/-- Witness for **C2** at a concrete input with mixed case and spaces. -/
theorem member_roundtrip_witness :
    (']' ∉ "Dim 1".data ∧ ']' ∉ "Elem A".data) ∧
    (memberOf false
        [(mkMember false "Dim 1".data "Dim 1".data "Elem A".data).uniqueName]).map
      MemberT.uniqueName =
      some (mkMember false "Dim 1".data "Dim 1".data "Elem A".data).uniqueName := by
  refine ⟨by decide, ?_⟩
  exact member_roundtrip false _ _ _ (by decide) (by decide) (by decide)
    (by intro hx; exact absurd hx (by decide))

/-- **C4** counterexample: with the short-notation toggle on, dimension
`"A"` and hierarchy `"a"` are equal after normalization, yet
`build_unique_name` does not collapse (it compares the raw names), so the
claimed collapse condition (equality after normalization) is wrong. -/
theorem build_unique_name_cex :
    normalize "A".data = normalize "a".data ∧
    buildUniqueName true "A".data "a".data "x".data = "[a].[a].[x]".data ∧
    buildUniqueName true "A".data "a".data "x".data ≠ "[a].[x]".data := by
  exact ⟨rfl, rfl, by decide⟩

/-- **C4** (amended).  `build_unique_name` produces the collapsed 2-segment
form `[dim].[elem]` over normalized tokens exactly when the short-notation
toggle is set and the raw dimension equals the raw hierarchy
(pre-normalization); in every other case it produces the 3-segment form
`[dim].[hier].[elem]` over normalized tokens. -/
theorem build_unique_name_collapse (sn : Bool) (d h e : List Char) :
    (buildUniqueName sn d h e =
        '[' :: (normalize d ++ (']' :: '.' :: '[' :: (normalize e ++ [']']))) ↔
      (sn = true ∧ d = h)) ∧
    (buildUniqueName sn d h e =
        '[' :: (normalize d ++ (']' :: '.' :: '[' :: (normalize h ++
          (']' :: '.' :: '[' :: (normalize e ++ [']']))))) ↔
      ¬(sn = true ∧ d = h)) := by
  by_cases hc : sn = true ∧ d = h
  · constructor
    · simp [buildUniqueName, hc]
    · simp only [buildUniqueName, if_pos hc]
      constructor
      · intro heq
        have hl := congrArg List.length heq
        simp [List.length_append] at hl
        omega
      · intro hn
        exact absurd hc hn
  · constructor
    · simp only [buildUniqueName, if_neg hc]
      constructor
      · intro heq
        have hl := congrArg List.length heq
        simp [List.length_append] at hl
        omega
      · intro hp
        exact absurd hp hc
    · simp [buildUniqueName, hc]

/-! ## Tuples, hierarchy sets and calculated members
(`mdx.py` lines 166-195, 251-314, 370-380, 558-614, 756-789)

`HSetT` models the hierarchy-set nodes the claims exercise:
`Tm1SubsetAllHierarchySet`, `ElementsHierarchySet`, `StrHierarchySet` (the
raw escape hatch `from_str`, which can carry any rendered fragment) and
`FilterByAttributeHierarchySet`.  `dimOf`/`hierOf` mirror the base-class
constructor `MdxHierarchySet.__init__`, which runs `normalize` on the
dimension argument at every construction — including when a wrapping node
passes the already-normalized dimension of its underlying set, so chained
nodes re-normalize.  A falsy (empty) hierarchy argument defaults to the
normalized dimension, as `normalize(hierarchy) if hierarchy else
self.dimension` does. -/

structure MdxTupleT where
  members : List MemberT
  deriving DecidableEq, Repr

/-- `MdxTuple.to_mdx` (lines 277-278). -/
def tupleToMdx (t : MdxTupleT) : List Char :=
  '(' :: (List.intercalate [','] (t.members.map MemberT.uniqueName) ++ [')'])

structure MdxPropertiesTupleT where
  members : List MemberT
  deriving DecidableEq, Repr

/-- `MdxPropertiesTuple.to_mdx` (lines 310-311): no enclosing parentheses. -/
def propsToMdx (t : MdxPropertiesTupleT) : List Char :=
  List.intercalate [','] (t.members.map MemberT.uniqueName)

/-- An attribute value passed to `filter_by_attribute`: a string is rendered
in double quotes, any other value is carried by its rendered text
(`str(value)` in the source). -/
inductive AttrValue where
  | str (s : List Char)
  | num (rendered : List Char)
  deriving DecidableEq, Repr

def renderAttrValue : AttrValue → List Char
  | .str s => '"' :: (s ++ ['"'])
  | .num r => r

/-- `ELEMENT_ATTRIBUTE_PREFIX` (line 6). -/
def elementAttributePrefix : List Char := "\x7dELEMENTATTRIBUTES_".data

inductive HSetT where
  | tm1SubsetAll (dimension : List Char) (hierarchy : Option (List Char))
  | elements (m : MemberT) (rest : List MemberT)
  | fromStr (dimension hierarchy mdx : List Char)
  | filterByAttribute (underlying : HSetT) (attributeName : List Char)
    (attributeValues : List AttrValue) (operator : List Char)
  deriving DecidableEq, Repr

/-- The `self.dimension` field set by `MdxHierarchySet.__init__`
(lines 372-374). -/
def dimOf : HSetT → List Char
  | .tm1SubsetAll d _ => normalize d
  | .elements m _ => normalize m.dimension
  | .fromStr d _ _ => normalize d
  | .filterByAttribute u _ _ _ => normalize (dimOf u)

/-- The `self.hierarchy` field set by `MdxHierarchySet.__init__`: a falsy
hierarchy argument (Python `None` or the empty string) defaults to the
normalized dimension. -/
def hierOf : HSetT → List Char
  | .tm1SubsetAll d h =>
    match h with
    | none => normalize d
    | some hs => if hs = [] then normalize d else normalize hs
  | .elements m _ =>
    if m.hierarchy = [] then normalize m.dimension else normalize m.hierarchy
  | .fromStr d h _ => if h = [] then normalize d else normalize h
  | .filterByAttribute u _ _ _ =>
    if hierOf u = [] then normalize (dimOf u) else normalize (hierOf u)

/-- `to_mdx` of the modelled set nodes (lines 563-564, 613-614, 762-763,
777-789). -/
def setToMdx : HSetT → List Char
  | .tm1SubsetAll d h =>
    "\x7bTM1SUBSETALL([".data ++ dimOf (.tm1SubsetAll d h) ++ "].[".data ++
      hierOf (.tm1SubsetAll d h) ++ "])\x7d".data
  | .elements m rest =>
    '\x7b' :: (List.intercalate [','] ((m :: rest).map MemberT.uniqueName) ++ ['\x7d'])
  | .fromStr _ _ mdx => mdx
  | .filterByAttribute u a vs op =>
    let attrCube := elementAttributePrefix ++ normalize (dimOf u)
    let mdxFilter := List.intercalate " OR ".data
      (vs.map (fun v =>
        '[' :: (attrCube ++ "].([".data ++ attrCube ++ "].[".data ++ a ++ "])".data ++
          op ++ renderAttrValue v)))
    "\x7bFILTER(".data ++ setToMdx u ++ [','] ++ mdxFilter ++ ")\x7d".data

/-- A `CalculatedMember` (lines 166-169): a member plus a calculation
fragment. -/
structure CalcMemberT where
  member : MemberT
  calculation : List Char
  deriving DecidableEq, Repr

/-- `CalculatedMember.lookup` (lines 183-186): the cube name is embedded as
`cube.lower()` — lowercased only, not normalized. -/
def calcLookup (sn : Bool) (dimension hierarchy element cube : List Char)
    (t : MdxTupleT) : CalcMemberT :=
  ⟨mkMember sn dimension hierarchy element,
    '[' :: (pyLower cube ++ "].".data ++ tupleToMdx t)⟩

/-- `CalculatedMember.to_mdx` (lines 194-195). -/
def calcToMdx (c : CalcMemberT) : List Char :=
  "MEMBER ".data ++ c.member.uniqueName ++ " AS ".data ++ c.calculation

/-! ## MdxAxis (`mdx.py` lines 1054-1107) -/

structure MdxAxisT where
  tuples : List MdxTupleT
  dimSets : List HSetT
  nonEmpty : Bool
  deriving DecidableEq, Repr

/-- `MdxAxis.empty` (lines 1060-1062). -/
def emptyAxis : MdxAxisT := ⟨[], [], false⟩

/-- `MdxAxis.add_tuple` (lines 1064-1068): raises when the axis already
holds sets; the raise precedes the append, so on the error branch the
Python object is unchanged. -/
def axisAddTuple (a : MdxAxisT) (t : MdxTupleT) : Except (List Char) MdxAxisT :=
  if a.dimSets ≠ [] then .error "Can not add tuple to axis that contains sets".data
  else .ok { a with tuples := a.tuples ++ [t] }

/-- `MdxAxis.add_set` (lines 1070-1077): raises when the axis already holds
tuples.  (The source's `isinstance` check on the argument cannot fire in
this typed model.) -/
def axisAddSet (a : MdxAxisT) (s : HSetT) : Except (List Char) MdxAxisT :=
  if a.tuples ≠ [] then .error "Can not add set to axis that contains tuples".data
  else .ok { a with dimSets := a.dimSets ++ [s] }

/-- `MdxAxis.is_empty` (lines 1079-1080). -/
def axisIsEmpty (a : MdxAxisT) : Bool := a.dimSets.isEmpty && a.tuples.isEmpty

/-- `MdxAxis.set_non_empty` (lines 1082-1083), with the default argument. -/
def axisSetNonEmpty (a : MdxAxisT) : MdxAxisT := { a with nonEmpty := true }

/-- One mutating call on an axis.  Running it with `axisApply` leaves the
pre-call state in place when the call raises. -/
inductive AxisOp where
  | addTuple (t : MdxTupleT)
  | addSet (s : HSetT)

def axisApply (a : MdxAxisT) : AxisOp → MdxAxisT
  | .addTuple t =>
    match axisAddTuple a t with
    | .ok a' => a'
    | .error _ => a
  | .addSet s =>
    match axisAddSet a s with
    | .ok a' => a'
    | .error _ => a

/-- Python `str(i)` for an `int`. -/
def intStr (i : Int) : List Char :=
  if i < 0 then '-' :: Nat.toDigits 10 i.natAbs else Nat.toDigits 10 i.toNat

def natStr (n : Nat) : List Char := Nat.toDigits 10 n

/-- `MdxAxis.dim_sets_to_mdx` (lines 1091-1098): the set fragments joined
with `" * "`, then optionally wrapped by HEAD, then by TAIL. -/
def dimSetsToMdx (a : MdxAxisT) (head tail : Option Int) : List Char :=
  let mdx := List.intercalate " * ".data (a.dimSets.map setToMdx)
  let mdx :=
    match head with
    | some hv => "\x7bHEAD(".data ++ mdx ++ ", ".data ++ intStr hv ++ ")\x7d".data
    | none => mdx
  match tail with
  | some tv => "\x7bTAIL(".data ++ mdx ++ ", ".data ++ intStr tv ++ ")\x7d".data
  | none => mdx

/-- `MdxAxis.tuples_to_mdx` (lines 1100-1107): the tuple fragments joined
with `","` inside one brace pair, then optionally wrapped by HEAD/TAIL. -/
def tuplesToMdx (a : MdxAxisT) (head tail : Option Int) : List Char :=
  let mdx := '\x7b' :: (List.intercalate [','] (a.tuples.map tupleToMdx) ++ ['\x7d'])
  let mdx :=
    match head with
    | some hv => "\x7bHEAD(".data ++ mdx ++ ", ".data ++ intStr hv ++ ")\x7d".data
    | none => mdx
  match tail with
  | some tv => "\x7bTAIL(".data ++ mdx ++ ", ".data ++ intStr tv ++ ")\x7d".data
  | none => mdx

/-- `MdxAxis.to_mdx` (lines 1085-1089). -/
def axisToMdx (a : MdxAxisT) (tm1IgnoreBadTuples : Bool) (head tail : Option Int) :
    List Char :=
  if axisIsEmpty a then "\x7b\x7d".data
  else
    (if a.nonEmpty then "NON EMPTY ".data else []) ++
    (if tm1IgnoreBadTuples then "TM1IGNORE_BADTUPLES ".data else []) ++
    (if a.dimSets ≠ [] then dimSetsToMdx a head tail else tuplesToMdx a head tail)

/-! ## MdxBuilder (`mdx.py` lines 1110-1272)

`self.axes` and `self.axes_properties` are Python dicts keyed by the axis
position; Python dicts preserve insertion order, so they are modelled as
association lists: lookup finds the (unique) entry with the key, in-place
assignment to an existing key keeps its position, and assignment to a fresh
key appends. -/

def dictContains {α : Type} (l : List (Nat × α)) (k : Nat) : Bool :=
  l.any (fun p => p.1 == k)

def dictGet? {α : Type} (l : List (Nat × α)) (k : Nat) : Option α :=
  (l.find? (fun p => p.1 == k)).map Prod.snd

def dictUpdate {α : Type} (l : List (Nat × α)) (k : Nat) (f : α → α) : List (Nat × α) :=
  l.map (fun p => if p.1 = k then (p.1, f p.2) else p)

/-- `if axis not in self.axes: self.axes[axis] = MdxAxis.empty()`. -/
def dictGetOrCreate {α : Type} (l : List (Nat × α)) (k : Nat) (v : α) : List (Nat × α) :=
  if dictContains l k then l else l ++ [(k, v)]

structure MdxBuilderT where
  cube : List Char
  axes : List (Nat × MdxAxisT)
  whereTuple : MdxTupleT
  axesProperties : List (Nat × MdxPropertiesTupleT)
  calculatedMembers : List CalcMemberT
  tm1IgnoreBadTuples : Bool
  deriving DecidableEq, Repr

/-- `MdxBuilder.__init__` / `from_cube` (lines 1111-1122): the cube name is
normalized, axis 0 is pre-created empty. -/
def fromCube (cube : List Char) : MdxBuilderT :=
  ⟨normalize cube, [(0, emptyAxis)], ⟨[]⟩, [(0, ⟨[]⟩)], [], false⟩

/-- `MdxBuilder.with_member` (lines 1124-1126). -/
def withMember (b : MdxBuilderT) (c : CalcMemberT) : MdxBuilderT :=
  { b with calculatedMembers := b.calculatedMembers ++ [c] }

/-- `MdxBuilder.non_empty` (lines 1134-1139). -/
def builderNonEmpty (b : MdxBuilderT) (axis : Nat) : MdxBuilderT :=
  let axes₁ := dictGetOrCreate b.axes axis emptyAxis
  { b with axes := dictUpdate axes₁ axis axisSetNonEmpty }

/-- `MdxBuilder.add_set_to_axis` (lines 1179-1184): get-or-create the axis,
then delegate to `MdxAxis.add_set` (whose exception propagates).  The
`getD emptyAxis` default is never taken: the key is present after
`dictGetOrCreate`. -/
def addSetToAxis (b : MdxBuilderT) (axis : Nat) (s : HSetT) :
    Except (List Char) MdxBuilderT :=
  let axes₁ := dictGetOrCreate b.axes axis emptyAxis
  match axisAddSet ((dictGet? axes₁ axis).getD emptyAxis) s with
  | .ok ax' => .ok { b with axes := dictUpdate axes₁ axis (fun _ => ax') }
  | .error e => .error e

/-- `MdxBuilder.add_member_tuple_to_axis` with a ready `MdxTuple` argument
(lines 1145-1156). -/
def addTupleToAxis (b : MdxBuilderT) (axis : Nat) (t : MdxTupleT) :
    Except (List Char) MdxBuilderT :=
  let axes₁ := dictGetOrCreate b.axes axis emptyAxis
  match axisAddTuple ((dictGet? axes₁ axis).getD emptyAxis) t with
  | .ok ax' => .ok { b with axes := dictUpdate axes₁ axis (fun _ => ax') }
  | .error e => .error e

/-- `MdxBuilder.add_empty_set_to_axis` (lines 1186-1191): raises whenever
the position is already present in the axes dict, otherwise adds the
literal placeholder set `from_str("", "", "{}")`. -/
def addEmptySetToAxis (b : MdxBuilderT) (axis : Nat) : Except (List Char) MdxBuilderT :=
  if dictContains b.axes axis then
    .error ("axis: '".data ++ natStr axis ++ "' must be empty".data)
  else
    addSetToAxis b axis (HSetT.fromStr [] [] "\x7b\x7d".data)

/-- `MdxBuilder.add_member_to_where` (lines 1193-1195). -/
def addMemberToWhere (b : MdxBuilderT) (m : MemberT) : MdxBuilderT :=
  { b with whereTuple := ⟨b.whereTuple.members ++ [m]⟩ }

/-- `MdxBuilder._axis_mdx` (lines 1231-1248): the empty string for an empty
axis, otherwise the axis text, the `DIMENSION PROPERTIES` clause (unless
skipped; `MEMBER_NAME` when no properties are registered for the position)
and `ON <position>`, space-separated. -/
def axisMdxB (b : MdxBuilderT) (position : Nat) (head tail : Option Int)
    (skipDimensionProperties : Bool) : List Char :=
  let axis := (dictGet? b.axes position).getD emptyAxis
  let axisProperties := (dictGet? b.axesProperties position).getD ⟨[]⟩
  if axisIsEmpty axis then []
  else if skipDimensionProperties then
    axisToMdx axis b.tm1IgnoreBadTuples head tail ++ " ON ".data ++ natStr position
  else
    axisToMdx axis b.tm1IgnoreBadTuples head tail ++ " DIMENSION PROPERTIES ".data ++
      (if axisProperties.members.isEmpty then "MEMBER_NAME".data
       else propsToMdx axisProperties) ++
      " ON ".data ++ natStr position

/-- `MdxBuilder.to_mdx` (lines 1250-1272): optional `WITH` block, `SELECT`,
one `_axis_mdx` entry per created axis position in dict (insertion) order
joined by `",\r\n"`, `FROM [<cube>]`, optional `WHERE`.  Head/tail render
arguments are keyed to positions 0 and 1 only. -/
def builderToMdx (b : MdxBuilderT) (headColumns headRows tailColumns tailRows : Option Int)
    (skipDimensionProperties : Bool) : List Char :=
  let mdxWith := "WITH\r\n".data ++
    List.intercalate "\r\n".data (b.calculatedMembers.map calcToMdx) ++ "\r\n".data
  let headByAxisPosition : Nat → Option Int := fun p =>
    if p = 0 then headColumns else if p = 1 then headRows else none
  let tailByAxisPosition : Nat → Option Int := fun p =>
    if p = 0 then tailColumns else if p = 1 then tailRows else none
  let mdxAxes := List.intercalate ",\r\n".data
    (b.axes.map (fun pa =>
      axisMdxB b pa.1 (headByAxisPosition pa.1) (tailByAxisPosition pa.1)
        skipDimensionProperties))
  let mdxWhere :=
    if b.whereTuple.members.isEmpty then []
    else "\r\nWHERE ".data ++ tupleToMdx b.whereTuple
  (if b.calculatedMembers.isEmpty then [] else mdxWith) ++
    "SELECT\r\n".data ++ mdxAxes ++ "\r\nFROM [".data ++ b.cube ++ [']'] ++ mdxWhere

/-- State-passing form of `to_mdx`: the method body (lines 1250-1272) reads
`self` but contains no assignment to `self` or to its collections, so its
state-passing embedding returns the text together with the unchanged
builder. -/
def builderToMdxS (b : MdxBuilderT) (hc hr tc tr : Option Int) (skip : Bool) :
    List Char × MdxBuilderT :=
  (builderToMdx b hc hr tc tr skip, b)

/-! ## Claim theorems about sets, axes and the builder -/

theorem intercalate_single {α : Type} (sep x : List α) :
    List.intercalate sep [x] = x := by
  simp [List.intercalate]

/-- **C5** counterexample: the attribute name passed to
`filter_by_attribute` is embedded in a bracketed token of the rendered
output verbatim — here `[A B]`, which is not normalized (`normalize`
would give `ab`).  So not every identifier inside bracketed tokens has
passed through `normalize`. -/
theorem normalize_everywhere_cex :
    setToMdx (HSetT.filterByAttribute (HSetT.tm1SubsetAll "d".data none) "A B".data
        [AttrValue.str "v".data] "=".data) =
      "\x7bFILTER(\x7bTM1SUBSETALL([d].[d])\x7d,[\x7dELEMENTATTRIBUTES_d].([\x7dELEMENTATTRIBUTES_d].[A B])=\"v\")\x7d".data ∧
    normalize "A B".data ≠ "A B".data := by
  exact ⟨rfl, by decide⟩

/-- **C5** (amended).  In the rendered text of
`FilterByAttributeHierarchySet` the dimension and hierarchy of the base
selector appear normalized once, the dimension inside the attribute-cube
tokens appears normalized **twice** (the wrapping node re-runs `normalize`
on the already-normalized dimension of its underlying set), and the
attribute name appears verbatim, not normalized.  In `CalculatedMember`
renderings the member coordinates are normalized (via the unique name) but
the cube name is only lowercased — not space-stripped or bracket-escaped. -/
theorem normalize_applied_where (d a v op : List Char) (sn : Bool)
    (dm hm em cube : List Char) (t : MdxTupleT) :
    setToMdx (HSetT.filterByAttribute (HSetT.tm1SubsetAll d none) a
        [AttrValue.str v] op) =
      "\x7bFILTER(\x7bTM1SUBSETALL([".data ++ normalize d ++ "].[".data ++ normalize d ++
        "])\x7d,[\x7dELEMENTATTRIBUTES_".data ++ normalize (normalize d) ++
        "].([\x7dELEMENTATTRIBUTES_".data ++ normalize (normalize d) ++ "].[".data ++
        a ++ "])".data ++ op ++ ('"' :: (v ++ ['"'])) ++ ")\x7d".data ∧
    calcToMdx (calcLookup sn dm hm em cube t) =
      "MEMBER ".data ++ buildUniqueName sn dm hm em ++ " AS [".data ++
        pyLower cube ++ "].".data ++ tupleToMdx t := by
  constructor
  · simp [setToMdx, dimOf, hierOf, elementAttributePrefix, renderAttrValue,
      intercalate_single, List.append_assoc]
  · simp [calcToMdx, calcLookup, mkMember, List.append_assoc]

theorem axis_inv_step (a : MdxAxisT) (op : AxisOp)
    (h : a.tuples = [] ∨ a.dimSets = []) :
    (axisApply a op).tuples = [] ∨ (axisApply a op).dimSets = [] := by
  cases op with
  | addTuple t =>
    by_cases hd : a.dimSets = []
    · simp [axisApply, axisAddTuple, hd]
    · simpa [axisApply, axisAddTuple, hd] using h
  | addSet s =>
    by_cases ht : a.tuples = []
    · simp [axisApply, axisAddSet, ht]
    · simpa [axisApply, axisAddSet, ht] using h

theorem axis_inv_fold (ops : List AxisOp) (a : MdxAxisT)
    (h : a.tuples = [] ∨ a.dimSets = []) :
    (ops.foldl axisApply a).tuples = [] ∨ (ops.foldl axisApply a).dimSets = [] := by
  induction ops generalizing a with
  | nil => exact h
  | cons op ops ih => exact ih _ (axis_inv_step a op h)

/-- **C6.** `add_tuple` fails (raising the `ValueError`) exactly when the
axis already holds sets, `add_set` fails exactly when the axis already
holds tuples, a failing call leaves the axis unchanged, and consequently
an axis reachable from `empty()` by any sequence of `add_tuple`/`add_set`
calls never holds both tuples and sets. -/
theorem axis_exclusive :
    (∀ (a : MdxAxisT) (t : MdxTupleT),
      (∃ e, axisAddTuple a t = .error e) ↔ a.dimSets ≠ []) ∧
    (∀ (a : MdxAxisT) (s : HSetT),
      (∃ e, axisAddSet a s = .error e) ↔ a.tuples ≠ []) ∧
    (∀ (a : MdxAxisT) (t : MdxTupleT), a.dimSets ≠ [] →
      axisApply a (.addTuple t) = a) ∧
    (∀ (a : MdxAxisT) (s : HSetT), a.tuples ≠ [] →
      axisApply a (.addSet s) = a) ∧
    (∀ ops : List AxisOp,
      (ops.foldl axisApply emptyAxis).tuples = [] ∨
      (ops.foldl axisApply emptyAxis).dimSets = []) := by
  refine ⟨?_, ?_, ?_, ?_, ?_⟩
  · intro a t
    by_cases hd : a.dimSets = [] <;> simp [axisAddTuple, hd]
  · intro a s
    by_cases ht : a.tuples = [] <;> simp [axisAddSet, ht]
  · intro a t hd
    simp [axisApply, axisAddTuple, hd]
  · intro a s ht
    simp [axisApply, axisAddSet, ht]
  · intro ops
    exact axis_inv_fold ops emptyAxis (Or.inl rfl)

/-- Witness for **C6**: a failing `add_tuple` on an axis holding one set,
and a failing `add_set` on an axis holding one tuple, both leave the axis
unchanged. -/
theorem axis_exclusive_witness :
    axisApply ⟨[], [HSetT.fromStr [] [] []], false⟩ (.addTuple ⟨[]⟩) =
      ⟨[], [HSetT.fromStr [] [] []], false⟩ ∧
    axisApply ⟨[⟨[]⟩], [], false⟩ (.addSet (HSetT.fromStr [] [] [])) =
      ⟨[⟨[]⟩], [], false⟩ := by
  exact ⟨axis_exclusive.2.2.1 _ _ (by decide), axis_exclusive.2.2.2.1 _ _ (by decide)⟩

/-- **C7.** `MdxAxis.to_mdx` renders `{}` for an empty axis regardless of
flags and head/tail; otherwise it emits `NON EMPTY ` then
`TM1IGNORE_BADTUPLES ` as flagged, then either the ` * `-joined set
fragments or the comma-joined tuple fragments enclosed in one brace pair;
a head argument wraps the joined expression as `{HEAD(expr, h)}`, a tail
argument as `{TAIL(expr, t)}`, and both together as
`{TAIL({HEAD(expr, h)}, t)}` — head applied before tail.  The wrapping is
stated for both code paths: the set branch (`dim_sets_to_mdx`, whose joined
expression carries no extra braces of its own) and the tuple branch
(`tuples_to_mdx`, whose joined expression is the brace-enclosed tuple
list). -/
theorem axis_to_mdx_spec :
    (∀ (ne ib : Bool) (h t : Option Int),
      axisToMdx ⟨[], [], ne⟩ ib h t = "\x7b\x7d".data) ∧
    (∀ (s : HSetT) (rest : List HSetT) (ne ib : Bool),
      axisToMdx ⟨[], s :: rest, ne⟩ ib none none =
        (if ne then "NON EMPTY ".data else []) ++
        (if ib then "TM1IGNORE_BADTUPLES ".data else []) ++
        List.intercalate " * ".data ((s :: rest).map setToMdx)) ∧
    (∀ (tp : MdxTupleT) (rest : List MdxTupleT) (ne ib : Bool),
      axisToMdx ⟨tp :: rest, [], ne⟩ ib none none =
        (if ne then "NON EMPTY ".data else []) ++
        (if ib then "TM1IGNORE_BADTUPLES ".data else []) ++
        ('\x7b' :: (List.intercalate [','] ((tp :: rest).map tupleToMdx) ++ ['\x7d']))) ∧
    (∀ (s : HSetT) (rest : List HSetT) (ne ib : Bool) (hv tv : Int),
      axisToMdx ⟨[], s :: rest, ne⟩ ib (some hv) (some tv) =
        (if ne then "NON EMPTY ".data else []) ++
        (if ib then "TM1IGNORE_BADTUPLES ".data else []) ++
        ("\x7bTAIL(\x7bHEAD(".data ++
          List.intercalate " * ".data ((s :: rest).map setToMdx) ++ ", ".data ++
          intStr hv ++ ")\x7d, ".data ++ intStr tv ++ ")\x7d".data)) ∧
    (∀ (s : HSetT) (rest : List HSetT) (ne ib : Bool) (hv : Int),
      axisToMdx ⟨[], s :: rest, ne⟩ ib (some hv) none =
        (if ne then "NON EMPTY ".data else []) ++
        (if ib then "TM1IGNORE_BADTUPLES ".data else []) ++
        ("\x7bHEAD(".data ++ List.intercalate " * ".data ((s :: rest).map setToMdx) ++
          ", ".data ++ intStr hv ++ ")\x7d".data)) ∧
    (∀ (s : HSetT) (rest : List HSetT) (ne ib : Bool) (tv : Int),
      axisToMdx ⟨[], s :: rest, ne⟩ ib none (some tv) =
        (if ne then "NON EMPTY ".data else []) ++
        (if ib then "TM1IGNORE_BADTUPLES ".data else []) ++
        ("\x7bTAIL(".data ++ List.intercalate " * ".data ((s :: rest).map setToMdx) ++
          ", ".data ++ intStr tv ++ ")\x7d".data)) ∧
    (∀ (tp : MdxTupleT) (rest : List MdxTupleT) (ne ib : Bool) (hv tv : Int),
      axisToMdx ⟨tp :: rest, [], ne⟩ ib (some hv) (some tv) =
        (if ne then "NON EMPTY ".data else []) ++
        (if ib then "TM1IGNORE_BADTUPLES ".data else []) ++
        ("\x7bTAIL(\x7bHEAD(\x7b".data ++
          List.intercalate [','] ((tp :: rest).map tupleToMdx) ++ "\x7d, ".data ++
          intStr hv ++ ")\x7d, ".data ++ intStr tv ++ ")\x7d".data)) ∧
    (∀ (tp : MdxTupleT) (rest : List MdxTupleT) (ne ib : Bool) (hv : Int),
      axisToMdx ⟨tp :: rest, [], ne⟩ ib (some hv) none =
        (if ne then "NON EMPTY ".data else []) ++
        (if ib then "TM1IGNORE_BADTUPLES ".data else []) ++
        ("\x7bHEAD(\x7b".data ++ List.intercalate [','] ((tp :: rest).map tupleToMdx) ++
          "\x7d, ".data ++ intStr hv ++ ")\x7d".data)) ∧
    (∀ (tp : MdxTupleT) (rest : List MdxTupleT) (ne ib : Bool) (tv : Int),
      axisToMdx ⟨tp :: rest, [], ne⟩ ib none (some tv) =
        (if ne then "NON EMPTY ".data else []) ++
        (if ib then "TM1IGNORE_BADTUPLES ".data else []) ++
        ("\x7bTAIL(\x7b".data ++ List.intercalate [','] ((tp :: rest).map tupleToMdx) ++
          "\x7d, ".data ++ intStr tv ++ ")\x7d".data)) := by
  refine ⟨?_, ?_, ?_, ?_, ?_, ?_, ?_, ?_, ?_⟩
  · intro ne ib h t
    rfl
  · intro s rest ne ib
    simp [axisToMdx, axisIsEmpty, dimSetsToMdx]
  · intro tp rest ne ib
    simp [axisToMdx, axisIsEmpty, tuplesToMdx]
  · intro s rest ne ib hv tv
    simp [axisToMdx, axisIsEmpty, dimSetsToMdx, List.append_assoc]
  · intro s rest ne ib hv
    simp [axisToMdx, axisIsEmpty, dimSetsToMdx, List.append_assoc]
  · intro s rest ne ib tv
    simp [axisToMdx, axisIsEmpty, dimSetsToMdx, List.append_assoc]
  · intro tp rest ne ib hv tv
    simp [axisToMdx, axisIsEmpty, tuplesToMdx, List.append_assoc]
  · intro tp rest ne ib hv
    simp [axisToMdx, axisIsEmpty, tuplesToMdx, List.append_assoc]
  · intro tp rest ne ib tv
    simp [axisToMdx, axisIsEmpty, tuplesToMdx, List.append_assoc]

theorem natStr_zero : natStr 0 = ['0'] := rfl

theorem natStr_one : natStr 1 = ['1'] := rfl

theorem natStr_two : natStr 2 = ['2'] := rfl

theorem dictGet_append_fresh {α : Type} {l : List (Nat × α)} {k : Nat}
    (h : dictContains l k = false) (v : α) :
    dictGet? (l ++ [(k, v)]) k = some v := by
  induction l with
  | nil => simp [dictGet?, List.find?]
  | cons p l ih =>
    rw [dictContains, List.any_cons, Bool.or_eq_false_iff] at h
    obtain ⟨h1, h2⟩ := h
    rw [List.cons_append, dictGet?, List.find?_cons_of_neg _ (by simp [h1])]
    exact ih h2

theorem dictGet_update_append_fresh {α : Type} {l : List (Nat × α)} {k : Nat}
    (h : dictContains l k = false) (v : α) (f : α → α) :
    dictGet? (dictUpdate (l ++ [(k, v)]) k f) k = some (f v) := by
  induction l with
  | nil => simp [dictUpdate, dictGet?, List.find?]
  | cons p l ih =>
    rw [dictContains, List.any_cons, Bool.or_eq_false_iff] at h
    obtain ⟨h1, h2⟩ := h
    have h1' : ¬(p.1 = k) := by simpa using h1
    rw [List.cons_append, dictUpdate, List.map_cons, if_neg h1']
    rw [dictGet?, List.find?_cons_of_neg _ (by simp [h1])]
    exact ih h2

/-- **C10** counterexample: on a freshly constructed builder, axis 0 is
pre-created and empty (it has no content), yet `add_empty_set_to_axis(0)`
fails — so "fails exactly when the axis already has content" is wrong. -/
theorem add_empty_set_cex :
    (∃ e, addEmptySetToAxis (fromCube "c".data) 0 = .error e) ∧
    axisIsEmpty ((dictGet? (fromCube "c".data).axes 0).getD emptyAxis) = true := by
  exact ⟨⟨"axis: '0' must be empty".data, rfl⟩, rfl⟩

/-- **C10** (amended).  `add_empty_set_to_axis(p)` fails exactly when the
position `p` is already present in the axes dict — whether or not that axis
has content (axis 0 is always present from construction) — and on an absent
position it installs a placeholder set whose axis renders `{}`. -/
theorem add_empty_set_spec :
    (∀ (b : MdxBuilderT) (p : Nat),
      (∃ e, addEmptySetToAxis b p = .error e) ↔ dictContains b.axes p = true) ∧
    (∀ (b b' : MdxBuilderT) (p : Nat), addEmptySetToAxis b p = .ok b' →
      (dictGet? b'.axes p).map (fun ax => axisToMdx ax false none none) =
        some "\x7b\x7d".data) := by
  constructor
  · intro b p
    by_cases hc : dictContains b.axes p
    · simp [addEmptySetToAxis, hc]
    · have hc' : dictContains b.axes p = false := by simpa using hc
      simp [addEmptySetToAxis, hc', addSetToAxis, dictGetOrCreate,
        dictGet_append_fresh hc', axisAddSet, emptyAxis]
  · intro b b' p h
    by_cases hc : dictContains b.axes p
    · simp [addEmptySetToAxis, hc] at h
    · have hc' : dictContains b.axes p = false := by simpa using hc
      simp [addEmptySetToAxis, hc', addSetToAxis, dictGetOrCreate,
        dictGet_append_fresh hc', axisAddSet, emptyAxis] at h
      subst h
      rw [dictGet_update_append_fresh hc']
      rfl

/-- Witness for **C10**: adding the empty placeholder at the absent
position 1 of a fresh builder succeeds and that axis renders `{}`. -/
theorem add_empty_set_spec_witness :
    addEmptySetToAxis (fromCube "c".data) 1 =
      .ok (MdxBuilderT.mk "c".data
        [(0, emptyAxis), (1, ⟨[], [HSetT.fromStr [] [] "\x7b\x7d".data], false⟩)]
        ⟨[]⟩ [(0, ⟨[]⟩)] [] false) ∧
    (dictGet? (MdxBuilderT.mk "c".data
        [(0, emptyAxis), (1, ⟨[], [HSetT.fromStr [] [] "\x7b\x7d".data], false⟩)]
        ⟨[]⟩ [(0, ⟨[]⟩)] [] false).axes 1).map
      (fun ax => axisToMdx ax false none none) = some "\x7b\x7d".data := by
  refine ⟨rfl, ?_⟩
  exact add_empty_set_spec.2 (fromCube "c".data) _ 1 rfl

/-- **C8** counterexample, refuting both halves of the claim at concrete
inputs.  First: a builder whose only content is on axis 1 (axis 0 is
pre-created and left empty).  The claim says positions with no content
contribute nothing, so the output should start `SELECT\r\n{TM1SUBSETALL...`;
the code instead renders the empty axis 0 as the empty string inside the
`",\r\n"` join, producing a stray `,\r\n` right after `SELECT`.  Second: a
builder whose content is added to axis 2 and then to axis 1.  The claim says
axis lines appear in ascending position order (`ON 1` before `ON 2`); the
code emits them in dict-insertion order, `ON 2` before `ON 1`. -/
theorem builder_axes_cex :
    ((addSetToAxis (fromCube "c".data) 1 (HSetT.tm1SubsetAll "d".data none)).toOption.map
        (fun b => builderToMdx b none none none none false)) =
      some "SELECT\r\n,\r\n\x7bTM1SUBSETALL([d].[d])\x7d DIMENSION PROPERTIES MEMBER_NAME ON 1\r\nFROM [c]".data ∧
    ("SELECT\r\n,\r\n\x7bTM1SUBSETALL([d].[d])\x7d DIMENSION PROPERTIES MEMBER_NAME ON 1\r\nFROM [c]".data : List Char) ≠
      "SELECT\r\n\x7bTM1SUBSETALL([d].[d])\x7d DIMENSION PROPERTIES MEMBER_NAME ON 1\r\nFROM [c]".data ∧
    (((addSetToAxis (fromCube "c".data) 2 (HSetT.tm1SubsetAll "d".data none)).toOption.bind
        (fun b => (addSetToAxis b 1 (HSetT.tm1SubsetAll "e".data none)).toOption)).map
        (fun b => builderToMdx b none none none none false)) =
      some "SELECT\r\n,\r\n\x7bTM1SUBSETALL([d].[d])\x7d DIMENSION PROPERTIES MEMBER_NAME ON 2,\r\n\x7bTM1SUBSETALL([e].[e])\x7d DIMENSION PROPERTIES MEMBER_NAME ON 1\r\nFROM [c]".data ∧
    ("SELECT\r\n,\r\n\x7bTM1SUBSETALL([d].[d])\x7d DIMENSION PROPERTIES MEMBER_NAME ON 2,\r\n\x7bTM1SUBSETALL([e].[e])\x7d DIMENSION PROPERTIES MEMBER_NAME ON 1\r\nFROM [c]".data : List Char) ≠
      "SELECT\r\n\x7bTM1SUBSETALL([e].[e])\x7d DIMENSION PROPERTIES MEMBER_NAME ON 1,\r\n\x7bTM1SUBSETALL([d].[d])\x7d DIMENSION PROPERTIES MEMBER_NAME ON 2\r\nFROM [c]".data := by
  exact ⟨rfl, by decide, rfl, by decide⟩

/-- **C8** (amended).  `to_mdx` emits one join entry per *created* axis
position, in creation (dict insertion) order: positions with content render
as `<axis-text> DIMENSION PROPERTIES <props-or-MEMBER_NAME> ON <p>`, while
created-but-empty positions render as the empty string yet still take part
in the `",\r\n"` join, so they contribute separators; only positions never
created contribute nothing.  Positions created in ascending order therefore
render ascending, but out-of-order creation renders out of order, and the
`DIMENSION PROPERTIES` clause is omitted when the skip-properties render
flag is passed.  Stated over the raw-fragment escape hatch so the axis text
is arbitrary: content only on axis 0; content on axes 0 and 1 in ascending
creation order; content only on axis 1 with axis 0 left empty (the stray
leading separator); content on axis 2 then axis 1 (insertion order, not
ascending); and content on axis 0 rendered with the skip-properties flag
(no `DIMENSION PROPERTIES` clause). -/
theorem builder_axes_spec :
    (∀ (c frag : List Char) (b' : MdxBuilderT),
      addSetToAxis (fromCube c) 0 (HSetT.fromStr [] [] frag) = .ok b' →
      builderToMdx b' none none none none false =
        "SELECT\r\n".data ++ frag ++ " DIMENSION PROPERTIES MEMBER_NAME ON 0\r\nFROM [".data ++
          normalize c ++ [']']) ∧
    (∀ (c frag0 frag1 : List Char) (b1 b2 : MdxBuilderT),
      addSetToAxis (fromCube c) 0 (HSetT.fromStr [] [] frag0) = .ok b1 →
      addSetToAxis b1 1 (HSetT.fromStr [] [] frag1) = .ok b2 →
      builderToMdx b2 none none none none false =
        "SELECT\r\n".data ++ frag0 ++ " DIMENSION PROPERTIES MEMBER_NAME ON 0,\r\n".data ++
          frag1 ++ " DIMENSION PROPERTIES MEMBER_NAME ON 1\r\nFROM [".data ++
          normalize c ++ [']']) ∧
    (∀ (c frag : List Char) (b' : MdxBuilderT),
      addSetToAxis (fromCube c) 1 (HSetT.fromStr [] [] frag) = .ok b' →
      builderToMdx b' none none none none false =
        "SELECT\r\n,\r\n".data ++ frag ++
          " DIMENSION PROPERTIES MEMBER_NAME ON 1\r\nFROM [".data ++
          normalize c ++ [']']) ∧
    (∀ (c frag2 frag1 : List Char) (b1 b2 : MdxBuilderT),
      addSetToAxis (fromCube c) 2 (HSetT.fromStr [] [] frag2) = .ok b1 →
      addSetToAxis b1 1 (HSetT.fromStr [] [] frag1) = .ok b2 →
      builderToMdx b2 none none none none false =
        "SELECT\r\n,\r\n".data ++ frag2 ++
          " DIMENSION PROPERTIES MEMBER_NAME ON 2,\r\n".data ++ frag1 ++
          " DIMENSION PROPERTIES MEMBER_NAME ON 1\r\nFROM [".data ++
          normalize c ++ [']']) ∧
    (∀ (c frag : List Char) (b' : MdxBuilderT),
      addSetToAxis (fromCube c) 0 (HSetT.fromStr [] [] frag) = .ok b' →
      builderToMdx b' none none none none true =
        "SELECT\r\n".data ++ frag ++ " ON 0\r\nFROM [".data ++
          normalize c ++ [']']) := by
  refine ⟨?_, ?_, ?_, ?_, ?_⟩
  · intro c frag b' h
    simp [addSetToAxis, dictGetOrCreate, dictContains, dictGet?, List.find?,
      axisAddSet, dictUpdate, emptyAxis, fromCube] at h
    subst h
    simp [builderToMdx, axisMdxB, dictGet?, List.find?, axisToMdx, axisIsEmpty,
      dimSetsToMdx, intercalate_single, setToMdx, natStr_zero, tupleToMdx,
      propsToMdx, fromCube, emptyAxis, List.append_assoc]
  · intro c frag0 frag1 b1 b2 h1 h2
    simp [addSetToAxis, dictGetOrCreate, dictContains, dictGet?, List.find?,
      axisAddSet, dictUpdate, emptyAxis, fromCube] at h1
    subst h1
    simp [addSetToAxis, dictGetOrCreate, dictContains, dictGet?, List.find?,
      axisAddSet, dictUpdate, emptyAxis] at h2
    subst h2
    simp [builderToMdx, axisMdxB, dictGet?, List.find?, axisToMdx, axisIsEmpty,
      dimSetsToMdx, intercalate_single, setToMdx, natStr_zero, natStr_one,
      tupleToMdx, propsToMdx, emptyAxis, List.append_assoc, List.intercalate]
  · intro c frag b' h
    simp [addSetToAxis, dictGetOrCreate, dictContains, dictGet?, List.find?,
      axisAddSet, dictUpdate, emptyAxis, fromCube] at h
    subst h
    simp [builderToMdx, axisMdxB, dictGet?, List.find?, axisToMdx, axisIsEmpty,
      dimSetsToMdx, intercalate_single, setToMdx, natStr_zero, natStr_one,
      tupleToMdx, propsToMdx, emptyAxis, List.append_assoc, List.intercalate]
  · intro c frag2 frag1 b1 b2 h1 h2
    simp [addSetToAxis, dictGetOrCreate, dictContains, dictGet?, List.find?,
      axisAddSet, dictUpdate, emptyAxis, fromCube] at h1
    subst h1
    simp [addSetToAxis, dictGetOrCreate, dictContains, dictGet?, List.find?,
      axisAddSet, dictUpdate, emptyAxis] at h2
    subst h2
    simp [builderToMdx, axisMdxB, dictGet?, List.find?, axisToMdx, axisIsEmpty,
      dimSetsToMdx, intercalate_single, setToMdx, natStr_one, natStr_two,
      tupleToMdx, propsToMdx, emptyAxis, List.append_assoc, List.intercalate]
  · intro c frag b' h
    simp [addSetToAxis, dictGetOrCreate, dictContains, dictGet?, List.find?,
      axisAddSet, dictUpdate, emptyAxis, fromCube] at h
    subst h
    simp [builderToMdx, axisMdxB, dictGet?, List.find?, axisToMdx, axisIsEmpty,
      dimSetsToMdx, intercalate_single, setToMdx, natStr_zero, tupleToMdx,
      propsToMdx, fromCube, emptyAxis, List.append_assoc]

/-- Witness for **C8** at the concrete cube `"c"`: the empty-axis-0 case
(fragment on axis 1 only), the out-of-order case (axis 2 created before
axis 1), and the skip-properties case. -/
theorem builder_axes_spec_witness :
    addSetToAxis (fromCube "c".data) 1 (HSetT.fromStr [] [] "\x7bx\x7d".data) =
      .ok (MdxBuilderT.mk "c".data
        [(0, emptyAxis), (1, ⟨[], [HSetT.fromStr [] [] "\x7bx\x7d".data], false⟩)]
        ⟨[]⟩ [(0, ⟨[]⟩)] [] false) ∧
    builderToMdx (MdxBuilderT.mk "c".data
        [(0, emptyAxis), (1, ⟨[], [HSetT.fromStr [] [] "\x7bx\x7d".data], false⟩)]
        ⟨[]⟩ [(0, ⟨[]⟩)] [] false) none none none none false =
      "SELECT\r\n,\r\n\x7bx\x7d DIMENSION PROPERTIES MEMBER_NAME ON 1\r\nFROM [c]".data ∧
    builderToMdx (MdxBuilderT.mk "c".data
        [(0, emptyAxis), (2, ⟨[], [HSetT.fromStr [] [] "\x7bx\x7d".data], false⟩),
          (1, ⟨[], [HSetT.fromStr [] [] "\x7by\x7d".data], false⟩)]
        ⟨[]⟩ [(0, ⟨[]⟩)] [] false) none none none none false =
      "SELECT\r\n,\r\n\x7bx\x7d DIMENSION PROPERTIES MEMBER_NAME ON 2,\r\n\x7by\x7d DIMENSION PROPERTIES MEMBER_NAME ON 1\r\nFROM [c]".data ∧
    builderToMdx (MdxBuilderT.mk "c".data
        [(0, ⟨[], [HSetT.fromStr [] [] "\x7bx\x7d".data], false⟩)]
        ⟨[]⟩ [(0, ⟨[]⟩)] [] false) none none none none true =
      "SELECT\r\n\x7bx\x7d ON 0\r\nFROM [c]".data := by
  have h1 := builder_axes_spec.2.2.1 "c".data "\x7bx\x7d".data
    (MdxBuilderT.mk "c".data
      [(0, emptyAxis), (1, ⟨[], [HSetT.fromStr [] [] "\x7bx\x7d".data], false⟩)]
      ⟨[]⟩ [(0, ⟨[]⟩)] [] false) rfl
  have h2 := builder_axes_spec.2.2.2.1 "c".data "\x7bx\x7d".data "\x7by\x7d".data
    (MdxBuilderT.mk "c".data
      [(0, emptyAxis), (2, ⟨[], [HSetT.fromStr [] [] "\x7bx\x7d".data], false⟩)]
      ⟨[]⟩ [(0, ⟨[]⟩)] [] false)
    (MdxBuilderT.mk "c".data
      [(0, emptyAxis), (2, ⟨[], [HSetT.fromStr [] [] "\x7bx\x7d".data], false⟩),
        (1, ⟨[], [HSetT.fromStr [] [] "\x7by\x7d".data], false⟩)]
      ⟨[]⟩ [(0, ⟨[]⟩)] [] false) rfl rfl
  have h3 := builder_axes_spec.2.2.2.2 "c".data "\x7bx\x7d".data
    (MdxBuilderT.mk "c".data
      [(0, ⟨[], [HSetT.fromStr [] [] "\x7bx\x7d".data], false⟩)]
      ⟨[]⟩ [(0, ⟨[]⟩)] [] false) rfl
  exact ⟨rfl, by rw [h1]; rfl, by rw [h2]; rfl, by rw [h3]; rfl⟩

/-- **C9.** `to_mdx` has no side effects and is idempotent: in the
state-passing embedding the post-state agrees with the pre-state on the
cube name, the axes, the slicer tuple, the calculated members, the axis
properties and the ignore-bad-tuples flag, and rendering again from the
post-state with the same arguments yields the identical text. -/
theorem builder_to_mdx_pure (b : MdxBuilderT) (hc hr tc tr : Option Int) (skip : Bool) :
    (builderToMdxS b hc hr tc tr skip).2.cube = b.cube ∧
    (builderToMdxS b hc hr tc tr skip).2.axes = b.axes ∧
    (builderToMdxS b hc hr tc tr skip).2.whereTuple = b.whereTuple ∧
    (builderToMdxS b hc hr tc tr skip).2.calculatedMembers = b.calculatedMembers ∧
    (builderToMdxS b hc hr tc tr skip).2.axesProperties = b.axesProperties ∧
    (builderToMdxS b hc hr tc tr skip).2.tm1IgnoreBadTuples = b.tm1IgnoreBadTuples ∧
    (builderToMdxS ((builderToMdxS b hc hr tc tr skip).2) hc hr tc tr skip).1 =
      (builderToMdxS b hc hr tc tr skip).1 := by
  exact ⟨rfl, rfl, rfl, rfl, rfl, rfl, rfl⟩

end Mdxpy
